import Mathlib

/-!
A shallow embedding of the validation + join + derivation engine of
`src/PayAutomationAPP.py` (pandas/streamlit).  Tables are lists of row
structures; each pandas column operation used by the script is modelled by an
executable Lean function.  Cells that may be missing (pandas `NaN`) are
`Option String`.  Tables are taken after the initial `dropna(how="all")`
blank-row removal, with positional row indices.
-/

set_option autoImplicit false

/-- Model of Python `str.strip()` (used via pandas `.str.strip()`):
drop leading and trailing whitespace characters. -/
def pyStrip (s : String) : String :=
  ⟨((s.data.dropWhile Char.isWhitespace).reverse.dropWhile Char.isWhitespace).reverse⟩

/-- Model of Python `str.lower()` (pandas `.str.lower()`). -/
def pyLower (s : String) : String :=
  ⟨s.data.map Char.toLower⟩

/-- Model of Python `str.endswith(suffix)` (pandas `.str.endswith`). -/
def pyEndsWith (s suffix : String) : Bool :=
  suffix.data.isSuffixOf s.data

/-- Model of pandas `Series.fillna("")` at a single cell: a missing value
becomes the empty string. -/
def fillna (s : Option String) : String :=
  s.getD ""

/-- Model of pandas `Series.astype(str)` at a single cell: `NaN` prints as
the string `nan`. -/
def astypeStr (s : Option String) : String :=
  match s with
  | some t => t
  | none => "nan"

/-- A cell is "empty" when, after `fillna("")` and `strip()`, it is the empty
string — the emptiness test every per-column validation of the script uses. -/
def isEmptyCell (s : Option String) : Bool :=
  pyStrip (fillna s) == ""

/-- Positional indices of the rows satisfying a predicate: the model of a
pandas boolean-mask `.index` selection such as
`roster[roster["Agent Email"].fillna("").str.strip().eq("")].index`. -/
def idxWhere {α : Type} (p : α → Bool) (rows : List α) : List Nat :=
  (rows.enum.filter (fun x => p x.2)).map (fun x => x.1)

/-- One row of the Agent Roster CSV (columns `Agent Email`, `Rate`, `Team`). -/
structure RosterRow where
  agentEmail : Option String
  rate : Option String
  team : Option String
deriving DecidableEq

/-- One row of the Timers CSV (columns `Team`, `Hubstaff Project Names`,
`Pay Commodity`, `Process Name (App)`, `Process ID`). -/
structure TimerRow where
  team : Option String
  hubstaffProjectNames : Option String
  payCommodity : Option String
  processNameApp : Option String
  processID : Option String
deriving DecidableEq

/-- One row of the Raw hs export CSV (columns `Client`, `Project`, `Date`,
`Member`, `Work email`, `Time`). -/
structure RawHsRow where
  client : Option String
  project : Option String
  date : Option String
  member : Option String
  workEmail : Option String
  time : Option String
deriving DecidableEq

/-- The literal domain suffix checked by the script. -/
def invisibleDomain : String := "@invisible.email"

/-- `empty_agent_email_idx`: roster rows whose `Agent Email` is empty. -/
def empty_agent_email_idx (roster : List RosterRow) : List Nat :=
  idxWhere (fun r => isEmptyCell r.agentEmail) roster

/-- `bad_domain_idx`: roster rows whose stripped, lowercased `Agent Email`
does not end with `@invisible.email`. -/
def bad_domain_idx (roster : List RosterRow) : List Nat :=
  idxWhere (fun r => !pyEndsWith (pyLower (pyStrip (fillna r.agentEmail))) invisibleDomain) roster

/-- The (non-null, deduplicated) `Agent Email` group keys of
`roster.groupby("Agent Email")`: pandas `groupby` silently drops `NaN` keys
and groups on the raw (un-normalized) strings. -/
def rosterGroupKeys (roster : List RosterRow) : List String :=
  (roster.filterMap (fun r => r.agentEmail)).dedup

/-- `roster.groupby("Agent Email")["Rate"].nunique()` at one key: the number
of distinct non-null `Rate` values among the rows whose raw `Agent Email`
equals `e`. -/
def nuniqueRate (roster : List RosterRow) (e : String) : Nat :=
  (((roster.filter (fun r => r.agentEmail == some e)).filterMap (fun r => r.rate)).dedup).length

/-- `multi_rate_agents`: group keys whose `Rate` nunique exceeds 1. -/
def multi_rate_agents (roster : List RosterRow) : List String :=
  (rosterGroupKeys roster).filter (fun e => nuniqueRate roster e > 1)

/-- `agent_rows[agent] = list(roster[roster["Agent Email"] == agent].index)`:
all row indices whose raw `Agent Email` equals the flagged key. -/
def agent_rows (roster : List RosterRow) (e : String) : List Nat :=
  idxWhere (fun r => r.agentEmail == some e) roster

/-- `empty_commodity_idx`: timer rows whose `Pay Commodity` is empty. -/
def empty_commodity_idx (timers : List TimerRow) : List Nat :=
  idxWhere (fun t => isEmptyCell t.payCommodity) timers

/-- The `allowed` keyword list of the pay-commodity validation. -/
def allowed : List String := ["operate", "qa", "lead", "incentive", "audit"]

/-- A regex word character (`\w`), in the ASCII fragment the keyword pattern
exercises: letters, digits, underscore. -/
def isWordChar (c : Char) : Bool :=
  c.isAlphanum || c == '_'

/-- Whether the (already lowercased) keyword `kw` occurs in `hay` starting at
position `i` with a word boundary (`\b`) on each side. -/
def matchesWholeWordAt (hay kw : List Char) (i : Nat) : Bool :=
  ((hay.drop i).take kw.length == kw)
    && (i == 0 || !isWordChar (hay.getD (i - 1) ' '))
    && (!isWordChar (hay.getD (i + kw.length) ' '))

/-- Model of `re.search` with pattern `\b kw \b` under `re.IGNORECASE`:
some position of the lowercased haystack starts a whole-word occurrence. -/
def containsWholeWord (hay kw : String) : Bool :=
  (List.range (hay.length + 1)).any (fun i => matchesWholeWordAt (pyLower hay).data kw.data i)

/-- Model of `bool(pattern.search(x))` for the compiled pattern
`\b(?:operate|qa|lead|incentive|audit)\b` with `re.IGNORECASE`. -/
def payCommodityMatches (x : String) : Bool :=
  allowed.any (fun kw => containsWholeWord x kw)

/-- `invalid_commodity_idx`: timer rows whose stripped `Pay Commodity` does
not contain any allowed keyword as a whole word. -/
def invalid_commodity_idx (timers : List TimerRow) : List Nat :=
  idxWhere (fun t => !payCommodityMatches (pyStrip (fillna t.payCommodity))) timers

/-- The rows actually reported by the `Invalid 'Pay Commodity'` warning: the
script computes `invalid_commodity_idx` only in the `else` branch of the
emptiness check, so the keyword warning is emitted only when no row of the
table has an empty `Pay Commodity`. -/
def invalidCommodityWarningRows (timers : List TimerRow) : List Nat :=
  if empty_commodity_idx timers == [] then invalid_commodity_idx timers else []

/-- `empty_work_email_idx`: raw-hs rows whose `Work email` is empty. -/
def empty_work_email_idx (raw_hs : List RawHsRow) : List Nat :=
  idxWhere (fun r => isEmptyCell r.workEmail) raw_hs

/-- `invalid_work_email_idx`: raw-hs rows whose stripped, lowercased
`Work email` does not end with `@invisible.email`. -/
def invalid_work_email_idx (raw_hs : List RawHsRow) : List Nat :=
  idxWhere (fun r => !pyEndsWith (pyLower (pyStrip (fillna r.workEmail))) invisibleDomain) raw_hs

/-- A calendar date with no time component, the model of a normalized
`pd.Timestamp` (`pd.Timestamp.today().normalize()` and the parsed `Date`
column). -/
structure Date where
  year : Nat
  month : Nat
  day : Nat
deriving DecidableEq

/-- Gregorian leap-year rule, as implemented by `pd.Timestamp`. -/
def isLeapYear (y : Nat) : Bool :=
  y % 4 == 0 && (y % 100 != 0 || y % 400 == 0)

/-- Number of days of month `m` of year `y`: the day reached by
`pd.Timestamp(year, month, 1) + pd.offsets.MonthEnd(0)`. -/
def daysInMonth (y m : Nat) : Nat :=
  if m == 2 then (if isLeapYear y then 29 else 28)
  else if m == 4 || m == 6 || m == 9 || m == 11 then 30
  else 31

/-- Chronological order on dates (`pd.Timestamp` comparison). -/
def dateLE (a b : Date) : Bool :=
  a.year < b.year
    || (a.year == b.year
        && (a.month < b.month || (a.month == b.month && a.day ≤ b.day)))

/-- `start_cycle`: first day of the month when today's day-of-month is at
most 15, otherwise the 16th. -/
def start_cycle (today : Date) : Date :=
  if today.day ≤ 15 then ⟨today.year, today.month, 1⟩
  else ⟨today.year, today.month, 16⟩

/-- `end_cycle`: the 15th when today's day-of-month is at most 15, otherwise
the last calendar day of the month
(`pd.Timestamp(year, month, 1) + pd.offsets.MonthEnd(0)`). -/
def end_cycle (today : Date) : Date :=
  if today.day ≤ 15 then ⟨today.year, today.month, 15⟩
  else ⟨today.year, today.month, daysInMonth today.year today.month⟩

/-- Model of `Series.between(start, end)` at one parsed-date cell, inclusive
on both sides; an unparseable date (`pd.to_datetime(..., errors="coerce")`
gave `NaT`) is never between. -/
def dateBetween (d : Option Date) (s e : Date) : Bool :=
  match d with
  | none => false
  | some d => dateLE s d && dateLE d e

/-- `out_of_cycle_idx`: indices of the parsed `Date` column lying outside the
closed cycle interval (`NaT` included). -/
def out_of_cycle_idx (dates : List (Option Date)) (today : Date) : List Nat :=
  idxWhere (fun d => !dateBetween d (start_cycle today) (end_cycle today)) dates

/-- Split a character list at every occurrence of `c` (model of Python
`str.split`; always returns at least one part). -/
def splitOnChar (c : Char) : List Char → List (List Char)
  | [] => [[]]
  | a :: rest =>
    match splitOnChar c rest with
    | [] => if a == c then [[], []] else [[a]]
    | h :: t => if a == c then [] :: h :: t else (a :: h) :: t

/-- Decimal value of a digit string (caller checks every char is a digit). -/
def parseDigits (l : List Char) : Nat :=
  l.foldl (fun acc c => acc * 10 + (c.toNat - 48)) 0

/-- Number of `:` characters of a string. -/
def countColons (s : String) : Nat :=
  s.data.count ':'

/-- `normalize_time_format` of the script, applied to the string form of the
cell: strip, keep the empty string, append `:00` when there is exactly one
colon, otherwise pass through. -/
def normalize_time_format (t : String) : String :=
  if pyStrip t == "" then pyStrip t
  else if countColons (pyStrip t) == 1 then pyStrip t ++ ":00"
  else pyStrip t

/-- Model of
`pd.to_timedelta(..., errors="coerce").dt.total_seconds() / 3600` on the
clock-duration strings the pipeline produces: an `H:M:S` string of three
non-empty digit groups becomes total seconds over 3600 as an exact rational;
anything else coerces to `NaT`, i.e. `none`. -/
def Time_in_hours (t : String) : Option ℚ :=
  match splitOnChar ':' t.data with
  | [h, m, s] =>
    if !h.isEmpty && h.all Char.isDigit && !m.isEmpty && m.all Char.isDigit
        && !s.isEmpty && s.all Char.isDigit then
      some (((parseDigits h : ℚ) * 3600 + (parseDigits m : ℚ) * 60 + (parseDigits s : ℚ)) / 3600)
    else none
  | _ => none

/-- `roster["Rate"].astype(str).str.replace("[^0-9.]", "", regex=True)`:
keep only digits and decimal points. -/
def cleanRate (s : String) : String :=
  ⟨s.data.filter (fun c => c.isDigit || c == '.')⟩

/-- Model of `pd.to_numeric(..., errors="coerce")` on the digits-and-dots
strings produced by `cleanRate`: a plain decimal literal parses to an exact
rational, anything else (empty, lone dot, several dots) coerces to `NaN`. -/
def to_numeric (s : String) : Option ℚ :=
  match splitOnChar '.' s.data with
  | [ip] =>
    if !ip.isEmpty && ip.all Char.isDigit then some (parseDigits ip) else none
  | [ip, fp] =>
    if (!ip.isEmpty || !fp.isEmpty) && ip.all Char.isDigit && fp.all Char.isDigit then
      some ((parseDigits ip : ℚ) + (parseDigits fp : ℚ) / (10 : ℚ) ^ fp.length)
    else none
  | _ => none

/-- The whole `Rate` cleanup of the script at one cell: `astype(str)`, strip
non-numeric characters, parse with `to_numeric`. -/
def rateOfCell (r : Option String) : Option ℚ :=
  to_numeric (cleanRate (astypeStr r))

/-- Email normalization of lines 159-160: `astype(str).str.strip().str.lower()`. -/
def normEmail (s : Option String) : String :=
  pyLower (pyStrip (astypeStr s))

/-- Round half to even, the rounding used by pandas `Series.round`. -/
def roundHalfEven (x : ℚ) : ℤ :=
  if x - (⌊x⌋ : ℚ) < 1 / 2 then ⌊x⌋
  else if (1 : ℚ) / 2 < x - (⌊x⌋ : ℚ) then ⌊x⌋ + 1
  else if ⌊x⌋ % 2 == 0 then ⌊x⌋ else ⌊x⌋ + 1

/-- Round a rational to `n` decimal places (pandas `Series.round(n)`). -/
def roundTo (n : Nat) (x : ℚ) : ℚ :=
  (roundHalfEven (x * (10 : ℚ) ^ n) : ℚ) / (10 : ℚ) ^ n

/-- `(merged["Time_in_hours"] * merged["Rate"]).round(2)` at one row: when
either operand is `NaN` the float product is `NaN` and rounding keeps it
`NaN`; otherwise the product is rounded to 2 decimals.  (Named `Total` in
the script; `Total` is taken in Mathlib.) -/
def totalCol (h r : Option ℚ) : Option ℚ :=
  match h, r with
  | some h, some r => some (roundTo 2 (h * r))
  | _, _ => none

/-- A roster row at merge time (after lines 159 and 163-164): `Agent Email`
normalized to a plain string, `Rate` cleaned and parsed (`NaN` = `none`).
Only the two columns selected by `roster[["Agent Email", "Rate"]]`. -/
structure NRosterRow where
  agentEmail : String
  rate : Option ℚ
deriving DecidableEq

/-- A raw-hs row at merge time: `Work email` normalized to a plain string
(line 160), `Date` parsed (line 119), the rest as read. -/
structure NRawHsRow where
  client : Option String
  project : Option String
  date : Option Date
  member : Option String
  workEmail : String
  time : Option String
deriving DecidableEq

/-- A row of `merged` after the first `pd.merge` (raw-hs left-joined with the
roster on email). -/
structure Merged1 where
  hs : NRawHsRow
  rate : Option ℚ
deriving DecidableEq

/-- A row of `merged` after the second `pd.merge` (timer-config columns
attached by project name) and the `Agent Email` column drop. -/
structure Merged2 where
  hs : NRawHsRow
  rate : Option ℚ
  hubstaffProjectNames : Option String
  team : Option String
  payCommodity : Option String
  processNameApp : Option String
  processID : Option String
deriving DecidableEq

/-- Row semantics of `pd.merge(left, right, ..., how="left")`: each left row
in order yields one output row per matching right row (in right input
order), or a single right-null row when nothing matches. -/
def leftJoin {α β γ : Type} (left : List α) (right : List β)
    (key : α → β → Bool) (combine : α → Option β → γ) : List γ :=
  left.flatMap (fun a =>
    match right.filter (key a) with
    | [] => [combine a none]
    | ms => ms.map (fun b => combine a (some b)))

/-- The first merge (lines 167-174): raw-hs ⟕ roster on
`Work email = Agent Email`; on a match the roster row's `Rate` is attached
(itself possibly `NaN`), otherwise `Rate` is `NaN`. -/
def merge1 (raw_hs : List NRawHsRow) (roster : List NRosterRow) : List Merged1 :=
  leftJoin raw_hs roster (fun h r => r.agentEmail == h.workEmail)
    (fun h r => ⟨h, r.bind (fun x => x.rate)⟩)

/-- The second merge (lines 176-182): result ⟕ timers on
`Project = Hubstaff Project Names` (raw cells, `NaN` matching `NaN` as in
pandas); on a match the five selected timer columns are attached. -/
def merge2 (m : List Merged1) (timers : List TimerRow) : List Merged2 :=
  leftJoin m timers (fun x t => t.hubstaffProjectNames == x.hs.project)
    (fun x t =>
      match t with
      | none => ⟨x.hs, x.rate, none, none, none, none, none⟩
      | some t => ⟨x.hs, x.rate, t.hubstaffProjectNames, t.team, t.payCommodity,
          t.processNameApp, t.processID⟩)

/-- The row set of the complete view: both merges in sequence.  (The
remaining steps — dropping `Agent Email`, normalizing `Time`, computing
`Total` — change columns of each row, never the number or order of rows.) -/
def complete_view_rows (raw_hs : List NRawHsRow) (roster : List NRosterRow)
    (timers : List TimerRow) : List Merged2 :=
  merge2 (merge1 raw_hs roster) timers

/-- Column names of the Raw hs export table. -/
def raw_hs_columns : List String :=
  ["Client", "Project", "Date", "Member", "Work email", "Time"]

/-- Columns selected from the roster for the first merge. -/
def roster_selected_columns : List String :=
  ["Agent Email", "Rate"]

/-- Columns selected from the timers table for the second merge. -/
def timers_selected_columns : List String :=
  ["Hubstaff Project Names", "Team", "Pay Commodity", "Process Name (App)", "Process ID"]

/-- `DataFrame.drop(columns=[c])` on a column-name list. -/
def dropColumn (cols : List String) (c : String) : List String :=
  cols.filter (fun x => x ≠ c)

/-- Column list of the downloaded complete view, step by step as the script
builds it: both merges concatenate left columns with the selected right
columns, `Agent Email` is dropped (lines 183-185), `Time_in_hours` and
`Total` are appended (lines 202-204) and `Time_in_hours` is dropped again
(line 205). -/
def complete_view_columns : List String :=
  dropColumn
    ((if "Agent Email" ∈ raw_hs_columns ++ roster_selected_columns ++ timers_selected_columns
      then dropColumn (raw_hs_columns ++ roster_selected_columns ++ timers_selected_columns)
        ("Agent Email")
      else raw_hs_columns ++ roster_selected_columns ++ timers_selected_columns)
      ++ ["Time_in_hours", "Total"])
    ("Time_in_hours")

/-- The column list the spec asserts for the complete view: the original
time-entry columns, then rate, team, pay_commodity, process_name,
process_id, total — with every join-key helper column excluded. -/
def spec_complete_view_columns : List String :=
  raw_hs_columns ++ ["Rate", "Team", "Pay Commodity", "Process Name (App)", "Process ID", "Total"]

/-- A one-row time-entry table whose email matches both rows of
`exC1Roster`. -/
def exC1Hs : List NRawHsRow :=
  [⟨some ("c"), some ("P"), none, some ("m"), "a@invisible.email", some ("1:00")⟩]

/-- A roster with two rows carrying the same normalized email. -/
def exC1Roster : List NRosterRow :=
  [⟨"a@invisible.email", some 10⟩, ⟨"a@invisible.email", some 20⟩]

/-- A duplicate-free roster matching `exC1Hs`. -/
def exC1WRoster : List NRosterRow :=
  [⟨"a@invisible.email", some 10⟩]

/-- A duplicate-free timer table matching `exC1Hs`'s project. -/
def exC1WTimers : List TimerRow :=
  [⟨some ("T"), some ("P"), some ("qa"), some ("N"), some ("1")⟩]

/-- A single time-entry row for the first-match-wins experiment. -/
def exC4Hs : NRawHsRow :=
  ⟨some ("c"), some ("Q"), none, some ("m"), "b@invisible.email", some ("2:00")⟩

/-- Two roster rows with the same email and different rates. -/
def exC4Roster : List NRosterRow :=
  [⟨"b@invisible.email", some 10⟩, ⟨"b@invisible.email", some 20⟩]

/-- A timer table with one empty `Pay Commodity` row and one keyword-less
non-empty row. -/
def exC2Timers : List TimerRow :=
  [⟨some ("T"), some ("P"), some (""), some ("N"), some ("1")⟩,
   ⟨some ("T"), some ("Q"), some ("qualified"), some ("N"), some ("1")⟩]

/-- A timer table with no empty `Pay Commodity` and one keyword-less row. -/
def exC2WTimers : List TimerRow :=
  [⟨some ("T"), some ("Q"), some ("qualified"), some ("N"), some ("1")⟩]

/-- Two roster rows whose emails agree only after normalization, with
distinct rates. -/
def exC3Roster : List RosterRow :=
  [⟨some (" Foo@Bar.COM "), some ("10"), some ("T")⟩,
   ⟨some ("foo@bar.com"), some ("20"), some ("T")⟩]

/-- Two roster rows with byte-identical emails and distinct rates. -/
def exC3WRoster : List RosterRow :=
  [⟨some ("a@invisible.email"), some ("10"), some ("T")⟩,
   ⟨some ("a@invisible.email"), some ("20"), some ("T")⟩]

/-- A roster whose single row has a missing `Agent Email`. -/
def exC10Roster : List RosterRow :=
  [⟨none, some ("10"), some ("T")⟩]

/-- A raw-hs table whose single row has a whitespace-only `Work email`. -/
def exC10RawHs : List RawHsRow :=
  [⟨some ("c"), some ("P"), some ("2024-02-20"), some ("m"), some ("  "), some ("1:00")⟩]

/-- Membership characterization of `idxWhere`: index `i` is selected exactly
when row `i` exists and satisfies the predicate. -/
theorem mem_idxWhere {α : Type} {p : α → Bool} {rows : List α} {i : Nat} :
    i ∈ idxWhere p rows ↔ ∃ x, rows[i]? = some x ∧ p x = true := by
  simp only [idxWhere, List.mem_map, List.mem_filter, Prod.exists]
  constructor
  · rintro ⟨a, b, ⟨hmem, hp⟩, rfl⟩
    exact ⟨b, List.mk_mem_enum_iff_getElem?.1 hmem, hp⟩
  · rintro ⟨x, hx, hp⟩
    exact ⟨i, x, ⟨List.mk_mem_enum_iff_getElem?.2 hx, hp⟩, rfl⟩

/-- If the images of a list are pairwise distinct, at most one element maps
to any given key. -/
theorem length_filter_key_le_one {α β : Type} [BEq β] [LawfulBEq β]
    (l : List α) (f : α → β) (k : β) (h : (l.map f).Nodup) :
    (l.filter (fun x => f x == k)).length ≤ 1 := by
  induction l with
  | nil => simp
  | cons a l ih =>
    simp only [List.map_cons, List.nodup_cons] at h
    by_cases hk : f a = k
    · have hnil : l.filter (fun x => f x == k) = [] := by
        rw [List.filter_eq_nil_iff]
        intro x hx hpx
        exact h.1 (hk ▸ (beq_iff_eq.1 hpx) ▸ List.mem_map_of_mem f hx)
      simp [List.filter_cons, hk, hnil]
    · simpa [List.filter_cons, hk] using ih h.2

/-- The length of a pandas-style left join when no left row has more than
one right-hand match: one output row per left row. -/
theorem leftJoin_length_eq {α β γ : Type} (left : List α) (right : List β)
    (key : α → β → Bool) (combine : α → Option β → γ)
    (h : ∀ a, (right.filter (key a)).length ≤ 1) :
    (leftJoin left right key combine).length = left.length := by
  induction left with
  | nil => rfl
  | cons a l ih =>
    have hstep : leftJoin (a :: l) right key combine
        = (match right.filter (key a) with
          | [] => [combine a none]
          | ms => ms.map (fun b => combine a (some b))) ++ leftJoin l right key combine := by
      simp [leftJoin]
    rw [hstep, List.length_append, ih]
    rcases hm : right.filter (key a) with _ | ⟨b, rest⟩
    · simp only [List.length_singleton, List.length_cons, List.length_nil]
      omega
    · have hlen := h a
      rw [hm] at hlen
      simp only [List.length_cons] at hlen
      have : rest = [] := List.length_eq_zero.1 (by omega)
      subst this
      simp only [List.map_cons, List.map_nil, List.length_singleton, List.length_cons, List.length_nil]
      omega

/-- A left join never drops a left row. -/
theorem leftJoin_length_ge {α β γ : Type} (left : List α) (right : List β)
    (key : α → β → Bool) (combine : α → Option β → γ) :
    left.length ≤ (leftJoin left right key combine).length := by
  induction left with
  | nil => simp [leftJoin]
  | cons a l ih =>
    have hstep : leftJoin (a :: l) right key combine
        = (match right.filter (key a) with
          | [] => [combine a none]
          | ms => ms.map (fun b => combine a (some b))) ++ leftJoin l right key combine := by
      simp [leftJoin]
    rw [hstep, List.length_append]
    rcases hm : right.filter (key a) with _ | ⟨b, rest⟩
    · simp only [List.length_singleton, List.length_cons, List.length_nil]
      omega
    · simp only [List.map_cons, List.length_cons, List.length_map]
      omega

/-- `find?` returns the head of the filtered list. -/
theorem head_filter_eq_find {α : Type} (l : List α) (p : α → Bool) :
    (l.filter p).head? = l.find? p := by
  induction l with
  | nil => rfl
  | cons a l ih =>
    by_cases h : p a
    · simp [List.filter_cons, List.find?_cons, h]
    · simp [List.filter_cons, List.find?_cons, h, ih]

/-- A list with two distinct members has at least two elements. -/
theorem two_le_length_of_mem_ne {α : Type} {m : List α} {a b : α}
    (ha : a ∈ m) (hb : b ∈ m) (h : a ≠ b) : 2 ≤ m.length := by
  match m with
  | [] => cases ha
  | [x] =>
    simp only [List.mem_singleton] at ha hb
    exact absurd (ha.trans hb.symm) h
  | x :: y :: t => simp only [List.length_cons]; omega

/-- A deduplicated list keeping two distinct values has at least two
elements. -/
theorem two_le_dedup_length {α : Type} [DecidableEq α] {l : List α} {a b : α}
    (ha : a ∈ l) (hb : b ∈ l) (h : a ≠ b) : 2 ≤ l.dedup.length :=
  two_le_length_of_mem_ne (List.mem_dedup.2 ha) (List.mem_dedup.2 hb) h

/-- C1: the claim fails on the code: `pd.merge(..., how="left")` fans out a
time-entry row into one output row per matching right-hand row, so a roster
with two rows sharing one email turns one time entry into two output rows. -/
theorem c1_counterexample :
    (complete_view_rows exC1Hs exC1Roster []).length = 2 ∧ exC1Hs.length = 1 := by
  constructor <;> rfl

/-- C1 (amended): the joins never drop a time-entry row, and when the
right-hand join-key columns (`Agent Email` of the roster, `Hubstaff Project
Names` of the timers) contain no duplicate values, the complete view has
exactly one output row per input time-entry row. -/
theorem c1_row_count (hs : List NRawHsRow) (ro : List NRosterRow) (tm : List TimerRow) :
    hs.length ≤ (complete_view_rows hs ro tm).length ∧
    ((ro.map (fun r => r.agentEmail)).Nodup →
      (tm.map (fun t => t.hubstaffProjectNames)).Nodup →
      (complete_view_rows hs ro tm).length = hs.length) := by
  constructor
  · have g1 : hs.length ≤ (merge1 hs ro).length := leftJoin_length_ge hs ro _ _
    have g2 : (merge1 hs ro).length ≤ (complete_view_rows hs ro tm).length := by
      unfold complete_view_rows merge2
      exact leftJoin_length_ge (merge1 hs ro) tm _ _
    exact le_trans g1 g2
  · intro h1 h2
    have e1 : (merge1 hs ro).length = hs.length :=
      leftJoin_length_eq hs ro _ _
        (fun a => length_filter_key_le_one ro (fun r => r.agentEmail) a.workEmail h1)
    have e2 : (complete_view_rows hs ro tm).length = (merge1 hs ro).length := by
      unfold complete_view_rows merge2
      exact leftJoin_length_eq (merge1 hs ro) tm _ _
        (fun a => length_filter_key_le_one tm (fun t => t.hubstaffProjectNames) a.hs.project h2)
    exact e2.trans e1

/-- C1 witness: the amended row-count equality at concrete duplicate-free
tables. -/
theorem c1_row_count_witness :
    (exC1WRoster.map (fun r => r.agentEmail)).Nodup ∧
    (exC1WTimers.map (fun t => t.hubstaffProjectNames)).Nodup ∧
    (complete_view_rows exC1Hs exC1WRoster exC1WTimers).length = exC1Hs.length :=
  ⟨by decide, by decide,
    (c1_row_count exC1Hs exC1WRoster exC1WTimers).2 (by decide) (by decide)⟩

/-- C4: the claim fails on the code: with two roster rows sharing the email
of one time entry, the complete view carries both rates on two fanned-out
rows instead of attaching only the first roster row's rate. -/
theorem c4_counterexample :
    (complete_view_rows [exC4Hs] exC4Roster []).map (fun r => r.rate)
      = [some 10, some 20] ∧
    (complete_view_rows [exC4Hs] exC4Roster []).length ≠ 1 := by
  constructor
  · rfl
  · decide

/-- C4 (amended): for a time-entry row with at least one roster match, the
first merge produces one output row per matching roster row, in roster input
order, each carrying that roster row's rate; in particular the first output
row carries the rate of the first matching roster row. -/
theorem c4_fan_out_in_order (h : NRawHsRow) (ro : List NRosterRow)
    (hm : ro.filter (fun r => r.agentEmail == h.workEmail) ≠ []) :
    merge1 [h] ro
      = (ro.filter (fun r => r.agentEmail == h.workEmail)).map
          (fun r => (⟨h, r.rate⟩ : Merged1)) ∧
    (merge1 [h] ro).head?
      = (ro.find? (fun r => r.agentEmail == h.workEmail)).map
          (fun r => (⟨h, r.rate⟩ : Merged1)) := by
  rcases hf : ro.filter (fun r => r.agentEmail == h.workEmail) with _ | ⟨b, rest⟩
  · exact absurd hf hm
  · have e1 : merge1 [h] ro = (b :: rest).map (fun r => (⟨h, r.rate⟩ : Merged1)) := by
      simp [merge1, leftJoin, hf]
    constructor
    · rw [e1, hf]
    · rw [e1, ← head_filter_eq_find ro (fun r => r.agentEmail == h.workEmail), hf]
      simp

/-- C4 witness: the amended statement at a concrete two-match roster. -/
theorem c4_fan_out_in_order_witness :
    exC4Roster.filter (fun r => r.agentEmail == exC4Hs.workEmail) ≠ [] ∧
    (merge1 [exC4Hs] exC4Roster).head?
      = (exC4Roster.find? (fun r => r.agentEmail == exC4Hs.workEmail)).map
          (fun r => (⟨exC4Hs, r.rate⟩ : Merged1)) :=
  ⟨by decide, (c4_fan_out_in_order exC4Hs exC4Roster (by decide)).2⟩

/-- C5: the claim fails on the code: the script drops only the `Agent Email`
helper column, so the timer-config join key `Hubstaff Project Names` remains
in the complete view and the column list differs from the one the spec
asserts. -/
theorem c5_counterexample :
    complete_view_columns ≠ spec_complete_view_columns ∧
    ("Hubstaff Project Names") ∈ complete_view_columns := by
  constructor
  · decide
  · decide

/-- C5 (amended): the complete view's columns are the original time-entry
columns, then `Rate`, then the timer-config join key `Hubstaff Project
Names`, then `Team`, `Pay Commodity`, `Process Name (App)`, `Process ID`,
`Total`; the duplicated roster email key is dropped but the timer-config
project-name key is kept. -/
theorem c5_columns :
    complete_view_columns
      = raw_hs_columns
        ++ ["Rate", "Hubstaff Project Names", "Team", "Pay Commodity",
            "Process Name (App)", "Process ID", "Total"] ∧
    ("Agent Email") ∉ complete_view_columns := by
  constructor
  · decide
  · decide

/-- C2: the claim fails on the code: the keyword check lives in the `else`
branch of the emptiness check, so one empty `Pay Commodity` row suppresses
the invalid-pay-commodity warning for the whole table — here the keyword-less
non-empty row `qualified` goes unflagged. -/
theorem c2_counterexample :
    invalidCommodityWarningRows exC2Timers = [] ∧
    isEmptyCell (exC2Timers.get ⟨1, by decide⟩).payCommodity = false ∧
    payCommodityMatches (pyStrip (fillna (exC2Timers.get ⟨1, by decide⟩).payCommodity))
      = false := by
  refine ⟨?_, ?_, ?_⟩ <;> decide

/-- C2 (amended): when no row of the timer table has an empty `Pay
Commodity`, a row is flagged by the invalid-pay-commodity warning exactly
when its trimmed `Pay Commodity` lacks every keyword of `operate`, `qa`,
`lead`, `incentive`, `audit` as a case-insensitive whole word; the
word-boundary semantics makes `QA Review` match and `qualified` not match.
If some row's `Pay Commodity` is empty, the keyword check is skipped for the
entire table, not per row. -/
theorem c2_keyword_warning (timers : List TimerRow)
    (hempty : empty_commodity_idx timers = []) :
    (∀ i t, timers[i]? = some t →
      (i ∈ invalidCommodityWarningRows timers ↔
        payCommodityMatches (pyStrip (fillna t.payCommodity)) = false)) ∧
    payCommodityMatches ("QA Review") = true ∧
    payCommodityMatches ("qualified") = false := by
  refine ⟨?_, by decide, by decide⟩
  intro i t ht
  have hw : invalidCommodityWarningRows timers = invalid_commodity_idx timers := by
    unfold invalidCommodityWarningRows
    rw [hempty]
    rfl
  rw [hw]
  constructor
  · intro hmem
    rcases mem_idxWhere.1 hmem with ⟨x, hx, hpx⟩
    rw [ht] at hx
    cases Option.some.inj hx
    simpa using hpx
  · intro hnm
    exact mem_idxWhere.2 ⟨t, ht, by simp [hnm]⟩

/-- C2 witness: the amended per-row characterization at a concrete table
with no empty commodity cell and one keyword-less row. -/
theorem c2_keyword_warning_witness :
    empty_commodity_idx exC2WTimers = [] ∧
    (0 ∈ invalidCommodityWarningRows exC2WTimers ↔
      payCommodityMatches (pyStrip (fillna
        (⟨some ("T"), some ("Q"), some ("qualified"), some ("N"), some ("1")⟩
          : TimerRow).payCommodity)) = false) :=
  ⟨by decide,
    (c2_keyword_warning exC2WTimers (by decide)).1 0
      (⟨some ("T"), some ("Q"), some ("qualified"), some ("N"), some ("1")⟩ : TimerRow) rfl⟩

/-- C3: the claim fails on the code: the duplicate-rate grouping runs before
email normalization, on the raw `Agent Email` strings, so two rows whose
emails agree only after trimming and lowercasing are not flagged even with
distinct rates. -/
theorem c3_counterexample :
    multi_rate_agents exC3Roster = [] ∧
    normEmail (exC3Roster.get ⟨0, by decide⟩).agentEmail
      = normEmail (exC3Roster.get ⟨1, by decide⟩).agentEmail ∧
    (exC3Roster.get ⟨0, by decide⟩).rate ≠ (exC3Roster.get ⟨1, by decide⟩).rate := by
  refine ⟨?_, ?_, ?_⟩ <;> decide

/-- C3 (amended): the duplicate-rate check groups by the raw
(un-normalized) `Agent Email`: whenever two roster rows carry byte-identical
emails and distinct non-null rate values, that email is flagged and every
row index carrying it is reported. -/
theorem c3_duplicate_rate_raw (roster : List RosterRow) (i j : Nat)
    (ri rj : RosterRow) (e r1 r2 : String)
    (hi : roster[i]? = some ri) (hj : roster[j]? = some rj)
    (hei : ri.agentEmail = some e) (hej : rj.agentEmail = some e)
    (hri : ri.rate = some r1) (hrj : rj.rate = some r2) (hne : r1 ≠ r2) :
    e ∈ multi_rate_agents roster ∧
    ∀ k rk, roster[k]? = some rk → rk.agentEmail = some e →
      k ∈ agent_rows roster e := by
  have hmi : ri ∈ roster := List.getElem?_mem hi
  have hmj : rj ∈ roster := List.getElem?_mem hj
  constructor
  · have hkey : e ∈ rosterGroupKeys roster :=
      List.mem_dedup.2 (List.mem_filterMap.2 ⟨ri, hmi, hei⟩)
    have hfi : ri ∈ roster.filter (fun r => r.agentEmail == some e) :=
      List.mem_filter.2 ⟨hmi, by simp [hei]⟩
    have hfj : rj ∈ roster.filter (fun r => r.agentEmail == some e) :=
      List.mem_filter.2 ⟨hmj, by simp [hej]⟩
    have hr1 : r1 ∈ (roster.filter (fun r => r.agentEmail == some e)).filterMap
        (fun r => r.rate) := List.mem_filterMap.2 ⟨ri, hfi, hri⟩
    have hr2 : r2 ∈ (roster.filter (fun r => r.agentEmail == some e)).filterMap
        (fun r => r.rate) := List.mem_filterMap.2 ⟨rj, hfj, hrj⟩
    have hnu : 1 < nuniqueRate roster e := by
      have := two_le_dedup_length hr1 hr2 hne
      unfold nuniqueRate
      omega
    exact List.mem_filter.2 ⟨hkey, by simpa using hnu⟩
  · intro k rk hk hek
    exact mem_idxWhere.2 ⟨rk, hk, by simp [hek]⟩

/-- C3 witness: the amended duplicate-rate statement at a concrete roster
with byte-identical emails and two different rates. -/
theorem c3_duplicate_rate_raw_witness :
    ("a@invisible.email") ∈ multi_rate_agents exC3WRoster :=
  (c3_duplicate_rate_raw exC3WRoster 0 1
    (⟨some ("a@invisible.email"), some ("10"), some ("T")⟩ : RosterRow)
    (⟨some ("a@invisible.email"), some ("20"), some ("T")⟩ : RosterRow)
    ("a@invisible.email") ("10") ("20")
    rfl rfl rfl rfl rfl rfl (by decide)).1

/-- Date order is reflexive. -/
theorem dateLE_refl (a : Date) : dateLE a a = true := by
  simp [dateLE]

/-- Every month has at least 28 days. -/
theorem daysInMonth_ge (y m : Nat) : 28 ≤ daysInMonth y m := by
  unfold daysInMonth
  split
  · split <;> omega
  · split <;> omega

/-- The cycle start never exceeds the cycle end. -/
theorem start_cycle_le_end_cycle (today : Date) :
    dateLE (start_cycle today) (end_cycle today) = true := by
  have hD := daysInMonth_ge today.year today.month
  by_cases h : today.day ≤ 15 <;> (simp [start_cycle, end_cycle, dateLE, h]; try omega)

/-- C6: the Cycle Resolver returns the closed interval from the 1st to the
15th when today's day-of-month is at most 15, and from the 16th to the last
calendar day of the month otherwise (with Gregorian month lengths and leap
years); both endpoints are in-cycle, and exactly the rows whose parsed date
is not inside the interval — unparseable (`NaT`) dates included — are
flagged by the date-outside-cycle warning. -/
theorem c6_cycle_resolver (today : Date) (dates : List (Option Date)) :
    (today.day ≤ 15 →
      start_cycle today = ⟨today.year, today.month, 1⟩ ∧
      end_cycle today = ⟨today.year, today.month, 15⟩) ∧
    (¬ today.day ≤ 15 →
      start_cycle today = ⟨today.year, today.month, 16⟩ ∧
      end_cycle today = ⟨today.year, today.month, daysInMonth today.year today.month⟩) ∧
    dateBetween (some (start_cycle today)) (start_cycle today) (end_cycle today) = true ∧
    dateBetween (some (end_cycle today)) (start_cycle today) (end_cycle today) = true ∧
    (∀ i d, dates[i]? = some d →
      (i ∈ out_of_cycle_idx dates today ↔
        dateBetween d (start_cycle today) (end_cycle today) = false)) ∧
    (∀ i, dates[i]? = some none → i ∈ out_of_cycle_idx dates today) ∧
    daysInMonth 2024 2 = 29 ∧ daysInMonth 2023 2 = 28 := by
  refine ⟨?_, ?_, ?_, ?_, ?_, ?_, by decide, by decide⟩
  · intro h
    constructor
    · unfold start_cycle; rw [if_pos h]
    · unfold end_cycle; rw [if_pos h]
  · intro h
    constructor
    · unfold start_cycle; rw [if_neg h]
    · unfold end_cycle; rw [if_neg h]
  · show (dateLE (start_cycle today) (start_cycle today)
        && dateLE (start_cycle today) (end_cycle today)) = true
    rw [dateLE_refl, start_cycle_le_end_cycle]
    rfl
  · show (dateLE (start_cycle today) (end_cycle today)
        && dateLE (end_cycle today) (end_cycle today)) = true
    rw [dateLE_refl, start_cycle_le_end_cycle]
    rfl
  · intro i d hd
    constructor
    · intro hmem
      rcases mem_idxWhere.1 hmem with ⟨x, hx, hpx⟩
      rw [hd] at hx
      cases Option.some.inj hx
      simpa using hpx
    · intro hout
      exact mem_idxWhere.2 ⟨d, hd, by simp [hout]⟩
  · intro i hd
    exact mem_idxWhere.2 ⟨none, hd, by simp [dateBetween]⟩

/-- C6 witness: the cycle around a concrete leap-February date, with one
in-cycle boundary date and one flagged out-of-cycle date. -/
theorem c6_cycle_resolver_witness :
    ¬ (⟨2024, 2, 20⟩ : Date).day ≤ 15 ∧
    end_cycle ⟨2024, 2, 20⟩ = ⟨2024, 2, 29⟩ ∧
    0 ∈ out_of_cycle_idx [some ⟨2024, 3, 1⟩] ⟨2024, 2, 20⟩ :=
  ⟨by decide,
    ((c6_cycle_resolver ⟨2024, 2, 20⟩ []).2.1 (by decide)).2,
    ((c6_cycle_resolver ⟨2024, 2, 20⟩ [some ⟨2024, 3, 1⟩]).2.2.2.2.1 0
      (some ⟨2024, 3, 1⟩) rfl).2 (by decide)⟩

/-- C7: duration handling: a trimmed string with exactly one colon gains a
`:00` suffix, a trimmed string with two colons passes through unchanged, the
empty string stays empty; the normalized string parses as
hours:minutes:seconds giving total seconds over 3600 (`2:30` gives 2.5
hours, `2:30:15` gives 9015/3600 hours, i.e. 2.5042 to 4 decimals), and an
unparseable duration gives a null hours value. -/
theorem c7_duration_parsing (s : String) :
    (pyStrip s = s → countColons s = 1 → normalize_time_format s = s ++ ":00") ∧
    (pyStrip s = s → countColons s = 2 → normalize_time_format s = s) ∧
    normalize_time_format ("") = "" ∧
    Time_in_hours (normalize_time_format ("2:30")) = some (5 / 2) ∧
    Time_in_hours (normalize_time_format ("2:30:15")) = some (9015 / 3600) ∧
    roundTo 4 (9015 / 3600) = 25042 / 10000 ∧
    Time_in_hours (normalize_time_format ("abc")) = none := by
  refine ⟨?_, ?_, by decide, ?_, ?_, ?_, by decide⟩
  · intro hst hc
    have hne : s ≠ "" := by
      intro h
      rw [h] at hc
      exact absurd hc (by decide)
    simp [normalize_time_format, hst, hne, hc]
  · intro hst hc
    have hne : s ≠ "" := by
      intro h
      rw [h] at hc
      exact absurd hc (by decide)
    simp [normalize_time_format, hst, hne, hc]
  · have e : Time_in_hours (normalize_time_format ("2:30"))
        = some (((((2 : ℕ) : ℚ)) * 3600 + (((30 : ℕ) : ℚ)) * 60 + (((0 : ℕ) : ℚ))) / 3600) :=
      rfl
    rw [e]
    norm_num
  · have e : Time_in_hours (normalize_time_format ("2:30:15"))
        = some (((((2 : ℕ) : ℚ)) * 3600 + (((30 : ℕ) : ℚ)) * 60 + (((15 : ℕ) : ℚ))) / 3600) :=
      rfl
    rw [e]
    norm_num
  · norm_num [roundTo, roundHalfEven]

/-- C7 witness: the one-colon normalization rule at `2:30`. -/
theorem c7_duration_parsing_witness :
    pyStrip ("2:30") = "2:30" ∧ countColons ("2:30") = 1 ∧
    normalize_time_format ("2:30") = "2:30" ++ ":00" :=
  ⟨by decide, by decide, (c7_duration_parsing ("2:30")).1 (by decide) (by decide)⟩

/-- C8: the total is the product of hours and rate rounded to 2 decimals
under the implementation's single rounding rule (round half to even, pandas
`round`); the rate is normalized by stripping every character that is not a
digit or a dot (`$12.50` parses to 12.50, and 2.5 hours at rate 12.50 give
31.25); and the total is null exactly when hours or rate is null. -/
theorem c8_total_rounding (h r : Option ℚ) (a b : ℚ) :
    (totalCol h r = none ↔ h = none ∨ r = none) ∧
    totalCol (some a) (some b) = some (roundTo 2 (a * b)) ∧
    rateOfCell (some ("$12.50")) = some (25 / 2) ∧
    totalCol (some (5 / 2)) (some (25 / 2)) = some (125 / 4) := by
  refine ⟨?_, rfl, ?_, ?_⟩
  · cases h <;> cases r <;> simp [totalCol]
  · have e : rateOfCell (some ("$12.50"))
        = some ((((12 : ℕ) : ℚ)) + (((50 : ℕ) : ℚ)) / (10 : ℚ) ^ (2 : ℕ)) := rfl
    rw [e]
    norm_num
  · show some (roundTo 2 ((5 / 2 : ℚ) * (25 / 2))) = some (125 / 4)
    norm_num [roundTo, roundHalfEven]

/-- C9: the pay-cycle interval always contains the date it was computed
from: for any valid calendar date, start ≤ today ≤ end in both branches. -/
theorem c9_today_in_cycle (today : Date) (h1 : 1 ≤ today.day)
    (h2 : today.day ≤ daysInMonth today.year today.month) :
    dateLE (start_cycle today) today = true ∧
    dateLE today (end_cycle today) = true := by
  by_cases hd : today.day ≤ 15
  · constructor <;> (simp [start_cycle, end_cycle, dateLE, hd]; try omega)
  · constructor <;> (simp [start_cycle, end_cycle, dateLE, hd]; try omega)

/-- C9 witness: the interval around a concrete date contains it. -/
theorem c9_today_in_cycle_witness :
    1 ≤ (⟨2024, 2, 20⟩ : Date).day ∧
    (⟨2024, 2, 20⟩ : Date).day ≤ daysInMonth 2024 2 ∧
    dateLE (start_cycle ⟨2024, 2, 20⟩) ⟨2024, 2, 20⟩ = true :=
  ⟨by decide, by decide, (c9_today_in_cycle ⟨2024, 2, 20⟩ (by decide) (by decide)).1⟩

/-- C10: a roster or time-entry row whose email is empty after trimming (or
missing) is flagged twice: by the empty-field check and, because the empty
string does not end with `@invisible.email`, also by the domain check. -/
theorem c10_empty_email_double_flagged (roster : List RosterRow)
    (raw_hs : List RawHsRow) (i : Nat) :
    (∀ r, roster[i]? = some r → isEmptyCell r.agentEmail = true →
      i ∈ empty_agent_email_idx roster ∧ i ∈ bad_domain_idx roster) ∧
    (∀ w, raw_hs[i]? = some w → isEmptyCell w.workEmail = true →
      i ∈ empty_work_email_idx raw_hs ∧ i ∈ invalid_work_email_idx raw_hs) := by
  constructor
  · intro r hr he
    have hstr : pyStrip (fillna r.agentEmail) = "" := by
      simpa [isEmptyCell] using he
    constructor
    · exact mem_idxWhere.2 ⟨r, hr, he⟩
    · refine mem_idxWhere.2 ⟨r, hr, ?_⟩
      show (!pyEndsWith (pyLower (pyStrip (fillna r.agentEmail))) invisibleDomain) = true
      rw [hstr]
      decide
  · intro w hw he
    have hstr : pyStrip (fillna w.workEmail) = "" := by
      simpa [isEmptyCell] using he
    constructor
    · exact mem_idxWhere.2 ⟨w, hw, he⟩
    · refine mem_idxWhere.2 ⟨w, hw, ?_⟩
      show (!pyEndsWith (pyLower (pyStrip (fillna w.workEmail))) invisibleDomain) = true
      rw [hstr]
      decide

/-- C10 witness: a missing roster email and a whitespace-only work email are
each flagged by both checks. -/
theorem c10_empty_email_double_flagged_witness :
    isEmptyCell ((⟨none, some ("10"), some ("T")⟩ : RosterRow).agentEmail) = true ∧
    (0 ∈ empty_agent_email_idx exC10Roster ∧ 0 ∈ bad_domain_idx exC10Roster) ∧
    (0 ∈ empty_work_email_idx exC10RawHs ∧ 0 ∈ invalid_work_email_idx exC10RawHs) :=
  ⟨by decide,
    (c10_empty_email_double_flagged exC10Roster exC10RawHs 0).1
      (⟨none, some ("10"), some ("T")⟩ : RosterRow) rfl (by decide),
    (c10_empty_email_double_flagged exC10Roster exC10RawHs 0).2
      (⟨some ("c"), some ("P"), some ("2024-02-20"), some ("m"), some ("  "), some ("1:00")⟩
        : RawHsRow) rfl (by decide)⟩
